import Mathlib

/-!
Verification of the deserialization engine in `sdkboil/deserializers.py`.

The Python source is dynamically typed; we embed it shallowly:

* `PyVal` models the values produced by `json.loads` plus constructed
  domain-object instances (`PyVal.inst`).
* `PyClass` models a Python class as the metadata the deserializer actually
  consults: the `issubclass` checks against `SdkCollectionObject` and
  `SdkObject`, the `elements_class` attribute (`none` models the attribute
  being absent, so that reading it raises `AttributeError`), the
  `sub_objects` schema (a dotted path together with either a plain class or a
  one-element-list marker `[cls]`, encoded by a Boolean), and the parameters
  of `__init__` (name, has-default flag), excluding the leading `self`.
* `Err` models the Python exceptions the code can raise, by exception class.
* Fallible code returns `Except Err PyVal`.  The mutually recursive walk
  (`_deserialize_array` / `_deserialize_dict` / `_deserialize_sub_object`)
  is embedded as a single fuel-indexed function `runD`; the fuel models
  CPython's recursion limit (`Err.recursionError`), which is reachable
  because the nested-collection branch of `_deserialize_array` recurses with
  the fixed class attribute `SdkCollectionObject.elements_class` rather than
  a structurally smaller argument.
* The Python code mutates the parsed document in place
  (`dict_[keys[-1]] = ...`) and returns the original root `tmp`.  Since
  `json.loads` always yields an alias-free tree, the in-place update is
  observationally the functional rebuild `pathSet` used here.
-/

/-- Python exceptions raised by the deserialization code, by exception
class.  `missingContentTypeException` / `unknownContentTypeException` are the
repository's own exception types from `sdkboil/exception.py`. -/
inductive Err where
  | missingContentTypeException (msg : String)
  | unknownContentTypeException (msg : String)
  | jsonDecodeError (msg : String)
  | keyError (key : String)
  | typeError (msg : String)
  | attributeError (msg : String)
  | recursionError
deriving Repr, DecidableEq

/-- The generic value tree: everything `json.loads` can produce
(`null`, booleans, numbers, strings, arrays, objects) plus constructed
domain-object instances (`inst class-name attributes`), which only class
calls create.  JSON numbers are modelled as integers; no claim involves
fractional values. -/
inductive PyVal where
  | null
  | bool (b : Bool)
  | num (n : Int)
  | str (s : String)
  | list (xs : List PyVal)
  | dict (kvs : List (String × PyVal))
  | inst (cls : String) (attrs : List (String × PyVal))
deriving Repr

/-- A Python class, reduced to the metadata `deserializers.py` consults.
`subObjects` entries are `(dotted-path, isListMarker, class)`: the value in
the Python `sub_objects` dict is either a class (`isListMarker = false`) or a
one-element list `[cls]` (`isListMarker = true`, the code reads `class_[0]`).
`initParams` are the declared parameters of `__init__` after `self`, with a
has-default flag. -/
inductive PyClass where
  | mk (name : String) (isColl : Bool) (isObj : Bool)
       (elementsClass : Option PyClass)
       (subObjects : List (String × Bool × PyClass))
       (initParams : List (String × Bool))
deriving Repr

def PyClass.name : PyClass → String
  | .mk n _ _ _ _ _ => n

def PyClass.isColl : PyClass → Bool
  | .mk _ c _ _ _ _ => c

def PyClass.isObj : PyClass → Bool
  | .mk _ _ o _ _ _ => o

def PyClass.elementsClass : PyClass → Option PyClass
  | .mk _ _ _ e _ _ => e

def PyClass.subObjects : PyClass → List (String × Bool × PyClass)
  | .mk _ _ _ _ s _ => s

def PyClass.initParams : PyClass → List (String × Bool)
  | .mk _ _ _ _ _ p => p

/-- Modelled from the spec: `sdkboil/object.py` is not under `src/`.  The
spec (§3) gives only concrete `CollectionTargetType`s a declared
`ElementType`; the abstract collection base class itself declares none, so
the attribute access `SdkCollectionObject.elements_class` performed by the
nested-collection branch of `_deserialize_array` finds no attribute
(`AttributeError` at lookup time), modelled as `none`. -/
def SdkCollectionObject_elements_class : Option PyClass := none

/-! ## Pure helpers: dict/path primitives and Python iteration -/

/-- Association-list lookup: models Python `d[k]` succeeding on a dict. -/
def dictLookup : List (String × PyVal) → String → Option PyVal
  | [], _ => none
  | (k, v) :: rest, key => if k = key then some v else dictLookup rest key

/-- Models Python dict assignment `d[k] = v`: replaces the value at an
existing key in place, otherwise appends (insertion order). -/
def dictSet (kvs : List (String × PyVal)) (key : String) (v : PyVal) :
    List (String × PyVal) :=
  if kvs.any (fun p => p.1 = key) then
    kvs.map (fun p => if p.1 = key then (key, v) else p)
  else kvs ++ [(key, v)]

/-- Models the Python subscript `value[key]` with a string key: succeeds
only on a dict that has the key (`KeyError` when absent), raises `TypeError`
on every other value shape, with CPython's messages. -/
def subscript (v : PyVal) (key : String) : Except Err PyVal :=
  match v with
  | .dict kvs =>
    match dictLookup kvs key with
    | some x => .ok x
    | none => .error (.keyError key)
  | .list _ => .error (.typeError "list indices must be integers or slices, not str")
  | .str _ => .error (.typeError "string indices must be integers")
  | _ => .error (.typeError "object is not subscriptable")

/-- Exception propagation: run the continuation on a successful result,
propagate a raised exception unchanged (Python control flow, where an
uncaught exception aborts the surrounding statement). -/
def exBind {α β : Type} (x : Except Err α) (f : α → Except Err β) :
    Except Err β :=
  match x with
  | .error e => .error e
  | .ok v => f v

theorem exBind_ok_iff {α β : Type} {x : Except Err α} {f : α → Except Err β}
    {w : β} : exBind x f = .ok w ↔ ∃ v, x = .ok v ∧ f v = .ok w := by
  cases x <;> simp [exBind]

/-- Models the navigation loop `for key in keys[:-1]: dict_ = dict_[key]`
of `_deserialize_sub_object`. -/
def pathGet : PyVal → List String → Except Err PyVal
  | v, [] => .ok v
  | v, k :: ks => exBind (subscript v k) (fun v' => pathGet v' ks)

/-- Functional rebuild equivalent to the in-place update
`dict_[keys[-1]] = newv` performed after navigating `keys[:-1]` from the
root (the parsed tree is alias-free, see the header comment). -/
def pathSet : PyVal → List String → String → PyVal → Except Err PyVal
  | v, [], last, nv =>
    match v with
    | .dict kvs => .ok (.dict (dictSet kvs last nv))
    | _ => .error (.typeError "object does not support item assignment")
  | v, k :: ks, last, nv =>
    exBind (subscript v k) (fun sub =>
      exBind (pathSet sub ks last nv) (fun nsub =>
        match v with
        | .dict kvs => .ok (.dict (dictSet kvs k nsub))
        | _ => .error (.typeError "object does not support item assignment")))

/-- Models Python `namespace.split('.')`: splitting on a single dot, never
returning an empty list (`"".split('.') == ['']`). -/
def splitDotAux : List Char → List Char → List String
  | [], acc => [String.mk acc.reverse]
  | c :: rest, acc =>
    if c = '.' then String.mk acc.reverse :: splitDotAux rest []
    else splitDotAux rest (c :: acc)

def splitDot (s : String) : List String := splitDotAux s.data []

/-- Models Python iteration `for el in array` as used by the list
comprehension in `_deserialize_array`: lists yield their elements, dicts
yield their keys, strings yield their characters, everything else raises
`TypeError` (instances of the domain objects define no `__iter__`). -/
def pyIterate : PyVal → Except Err (List PyVal)
  | .list xs => .ok xs
  | .dict kvs => .ok (kvs.map (fun kv => .str kv.1))
  | .str s => .ok (s.data.map (fun c => .str (String.mk [c])))
  | _ => .error (.typeError "object is not iterable")

/-! ## Constructor introspection and class calls -/

/-- Models `dict(inspect.signature(class_.__init__).parameters)` in
`_get_init_args`: `class_.__init__` is an unbound function, so its signature
starts with the declared `self` parameter, followed by the class's own
parameters. -/
def init_parameters (c : PyClass) : List String :=
  "self" :: c.initParams.map Prod.fst

/-- Helper for `_get_init_args` on a non-dict iterable (reachable because
`_deserialize_dict` passes non-dict JSON through unchanged when the schema
is empty): Python iterates the keys; an unhashable element fails the
`param in init_parameters` test with `TypeError`, a string element that is a
parameter name reaches the subscript `dict_[param]`, which fails with
`TypeError` on a non-dict; otherwise nothing matches and the result is
empty. -/
def scanNonDictKeys (params : List String) (subscriptErr : String) :
    List PyVal → Except Err (List (String × PyVal))
  | [] => .ok []
  | x :: rest =>
    match x with
    | .list _ => .error (.typeError "unhashable type")
    | .dict _ => .error (.typeError "unhashable type")
    | .str s =>
      if params.contains s then .error (.typeError subscriptErr)
      else scanNonDictKeys params subscriptErr rest
    | _ => scanNonDictKeys params subscriptErr rest

/-- `JsonDeserializer._get_init_args`: keeps exactly the keys of the mapping
that are also parameters of `class_.__init__`.  Non-dict arguments are
iterated per Python semantics (see `scanNonDictKeys`); non-iterables raise
`TypeError`. -/
def _get_init_args (c : PyClass) (v : PyVal) :
    Except Err (List (String × PyVal)) :=
  match v with
  | .dict kvs => .ok (kvs.filter (fun kv => (init_parameters c).contains kv.1))
  | .list xs =>
    scanNonDictKeys (init_parameters c)
      "list indices must be integers or slices, not str" xs
  | .str s =>
    scanNonDictKeys (init_parameters c) "string indices must be integers"
      (s.data.map (fun ch => .str (String.mk [ch])))
  | _ => .error (.typeError "object is not iterable")

/-- Scans keyword arguments in order as CPython binds `class_(**args)`:
`self` is already bound positionally to the fresh instance, so a `self` key
raises "multiple values"; a key that is no declared parameter raises
"unexpected keyword argument". -/
def checkKwargs (names : List String) : List (String × PyVal) → Option Err
  | [] => none
  | (k, _) :: rest =>
    if k = "self" then
      some (.typeError "got multiple values for argument self")
    else if names.contains k then checkKwargs names rest
    else some (.typeError ("got an unexpected keyword argument " ++ k))

/-- Models the class call `class_(**args)`: keyword binding followed by the
missing-required-argument check, yielding a constructed instance. -/
def callClassKw (c : PyClass) (args : List (String × PyVal)) :
    Except Err PyVal :=
  match checkKwargs (c.initParams.map Prod.fst) args with
  | some e => .error e
  | none =>
    if c.initParams.all (fun p => p.2 || args.any (fun kv => kv.1 = p.1)) then
      .ok (.inst c.name args)
    else .error (.typeError "missing required positional arguments")

/-- Models the class call `class_(x)` with one positional argument, as the
collection branch of `deserialize` performs: `x` binds to the first declared
parameter after `self`; every later parameter needs a default. -/
def callClass1 (c : PyClass) (v : PyVal) : Except Err PyVal :=
  match c.initParams with
  | [] => .error (.typeError "takes 1 positional argument but 2 were given")
  | (p, _) :: rest =>
    if rest.all (fun q => q.2) then .ok (.inst c.name [(p, v)])
    else .error (.typeError "missing required positional arguments")

/-! ## The recursive walk -/

/-- One pending call of the mutually recursive walk:
`arr` is `_deserialize_array`, `arrMap` its list comprehension, `dct` is
`_deserialize_dict`, `subs` its `for ... in sub_objects.items()` loop, and
`sub` is `_deserialize_sub_object`. -/
inductive Req where
  | arr (ec : PyClass) (v : PyVal)
  | arrMap (ec : PyClass) (els : List PyVal)
  | dct (c : PyClass) (v : PyVal)
  | subs (schema : List (String × Bool × PyClass)) (v : PyVal)
  | sub (ns : String) (isList : Bool) (cls : PyClass) (v : PyVal)

/-- Rebuilds the list comprehension result: conses a processed element onto
an already processed tail (always a `PyVal.list`). -/
def pyCons (r : PyVal) : PyVal → PyVal
  | .list l => .list (r :: l)
  | x => x

/-- The mutually recursive core of `JsonDeserializer`, fuel-indexed.
`base` is the value of the class attribute `SdkCollectionObject.elements_class`
that the nested-collection branch of `_deserialize_array` reads (note: the
code reads it off the abstract base class, not off `elements_class` itself).
Running out of fuel models CPython's `RecursionError`. -/
def runD (base : Option PyClass) : Nat → Req → Except Err PyVal
  | 0, _ => .error .recursionError
  | fuel + 1, .arr ec v =>
    if ec.isColl then
      match base with
      | none =>
        .error (.attributeError
          "type object SdkCollectionObject has no attribute elements_class")
      | some b => runD base fuel (.arr b v)
    else if ec.isObj then
      exBind (pyIterate v) (fun els => runD base fuel (.arrMap ec els))
    else .ok v
  | fuel + 1, .arrMap ec els =>
    match els with
    | [] => .ok (.list [])
    | el :: rest =>
      exBind (runD base fuel (.dct ec el)) (fun r =>
        exBind (runD base fuel (.arrMap ec rest)) (fun rs =>
          .ok (pyCons r rs)))
  | fuel + 1, .dct c v => runD base fuel (.subs c.subObjects v)
  | fuel + 1, .subs schema v =>
    match schema with
    | [] => .ok v
    | (ns, isList, cls) :: rest =>
      exBind (runD base fuel (.sub ns isList cls v)) (fun v' =>
        runD base fuel (.subs rest v'))
  | fuel + 1, .sub ns isList cls v =>
    exBind (pathGet v (splitDot ns).dropLast) (fun target =>
      exBind (subscript target ((splitDot ns).getLastD "")) (fun old =>
        exBind
          (if isList then runD base fuel (.arr cls old)
           else runD base fuel (.dct cls old)) (fun nv =>
          pathSet v (splitDot ns).dropLast ((splitDot ns).getLastD "") nv)))

/-- `JsonDeserializer._deserialize_array`. -/
def _deserialize_array (base : Option PyClass) (fuel : Nat) (ec : PyClass)
    (v : PyVal) : Except Err PyVal :=
  runD base fuel (.arr ec v)

/-- `JsonDeserializer._deserialize_dict`. -/
def _deserialize_dict (base : Option PyClass) (fuel : Nat) (c : PyClass)
    (v : PyVal) : Except Err PyVal :=
  runD base fuel (.dct c v)

/-- `JsonDeserializer._deserialize_sub_object`. -/
def _deserialize_sub_object (base : Option PyClass) (fuel : Nat) (ns : String)
    (isList : Bool) (cls : PyClass) (v : PyVal) : Except Err PyVal :=
  runD base fuel (.sub ns isList cls v)

/-- `JsonDeserializer.deserialize`.  `parseResult` is the outcome of the
external stdlib call `json.loads(json_string)`: `.error (.jsonDecodeError m)`
when the text is not valid JSON, otherwise the parsed tree.  The exception
propagates uncaught, as in the source. -/
def deserialize (base : Option PyClass) (fuel : Nat) (c : PyClass)
    (parseResult : Except Err PyVal) : Except Err PyVal :=
  match parseResult with
  | .error e => .error e
  | .ok json_data =>
    if c.isColl then
      match c.elementsClass with
      | none =>
        .error (.attributeError "type object has no attribute elements_class")
      | some ec =>
        exBind (runD base fuel (.arr ec json_data)) (fun arr =>
          callClass1 c arr)
    else if c.isObj then
      exBind (runD base fuel (.dct c json_data)) (fun d =>
        exBind (_get_init_args c d) (fun args => callClassKw c args))
    else .ok json_data

/-! ## Content-type dispatch and the form deserializer -/

/-- Modelled from the spec: `sdkboil/headers.py` is not under `src/`; these
are the two registered media-type constants it exports (§6: "the JSON media
type and the form-urlencoded media type"). -/
def APPLICATION_JSON : String := "application/json"

/-- Modelled from the spec: see `APPLICATION_JSON`. -/
def APPLICATION_FORM_URLENCODED : String := "application/x-www-form-urlencoded"

/-- The two concrete deserializer classes `_get_deserializer` can return. -/
inductive DeserializerChoice where
  | json
  | form
deriving Repr, DecidableEq

/-- `_get_deserializer`: content-type dispatch.  `none` models Python
`None`; the `if not content_type` test also treats the empty string as
missing. -/
def _get_deserializer (contentType : Option String) :
    Except Err DeserializerChoice :=
  match contentType with
  | none =>
    .error (.missingContentTypeException
      "Cannot get correct serializer without defining the Content-Type")
  | some s =>
    if s = "" then
      .error (.missingContentTypeException
        "Cannot get correct serializer without defining the Content-Type")
    else if s = APPLICATION_JSON then .ok .json
    else if s = APPLICATION_FORM_URLENCODED then .ok .form
    else .error (.unknownContentTypeException ("Unsupported Content-Type: " ++ s))

/-- `FormDeserializer.deserialize`: `class_(**raw)`, nothing else. -/
def FormDeserializer_deserialize (raw : List (String × PyVal)) (c : PyClass) :
    Except Err PyVal :=
  callClassKw c raw

/-! ## Auxiliary predicates used by the theorems -/

/-- The Python exceptions that path navigation in `_deserialize_sub_object`
can raise: `KeyError` (segment absent) and `TypeError` (segment value not
subscriptable by a string) — the `PathResolutionError` kind of the spec. -/
def Err.isPathError : Err → Bool
  | .keyError _ => true
  | .typeError _ => true
  | _ => false

/-- The value is a mapping (a Python dict). -/
def PyVal.isDict : PyVal → Bool
  | .dict _ => true
  | _ => false

/-- `hasKey kvs k`: the mapping has an entry for key `k`. -/
def hasKey (kvs : List (String × PyVal)) (k : String) : Bool :=
  kvs.any (fun p => p.1 = k)

/-- `w` is a dict whose key set contains every key of `kvs`. -/
def dictSuperset (kvs : List (String × PyVal)) (w : PyVal) : Prop :=
  ∃ kvs', w = PyVal.dict kvs' ∧ ∀ k, hasKey kvs k = true → hasKey kvs' k = true

mutual

/-- `noInst v`: the value tree contains no constructed instance, i.e. it is
still raw parsed data. -/
def noInst : PyVal → Bool
  | .null => true
  | .bool _ => true
  | .num _ => true
  | .str _ => true
  | .list xs => noInstL xs
  | .dict kvs => noInstKV kvs
  | .inst _ _ => false

def noInstL : List PyVal → Bool
  | [] => true
  | x :: xs => noInst x && noInstL xs

def noInstKV : List (String × PyVal) → Bool
  | [] => true
  | (_, v) :: kvs => noInst v && noInstKV kvs

end

/-- The input values carried by a pending call are raw (instance-free). -/
def reqOk : Req → Bool
  | .arr _ v => noInst v
  | .arrMap _ els => noInstL els
  | .dct _ v => noInst v
  | .subs _ v => noInst v
  | .sub _ _ _ v => noInst v

/-! ## Concrete sample classes used as test inputs -/

/-- A plain `SdkObject` subclass `E(id)` with an empty `sub_objects`. -/
def elemObjClass : PyClass := .mk "E" false true none [] [("id", false)]

/-- `D`, an `SdkCollectionObject` subclass whose own `elements_class` is
`elemObjClass`. -/
def innerCollClass : PyClass := .mk "D" true true (some elemObjClass) [] [("elements", false)]

/-- `C`, an `SdkCollectionObject` subclass of collections: its
`elements_class` is the collection class `innerCollClass`. -/
def outerCollClass : PyClass := .mk "C" true true (some innerCollClass) [] [("elements", false)]

/-- A class that is neither an `SdkCollectionObject` nor an `SdkObject`
subclass (the scalar/unregistered pass-through kind). -/
def scalarClass : PyClass := .mk "Scalar" false false none [] []

/-- A collection whose `elements_class` is the pass-through `scalarClass`. -/
def collOfScalarClass : PyClass := .mk "CollS" true true (some scalarClass) [] [("elements", false)]

/-- A plain `SdkObject` subclass `P(a)` with an empty `sub_objects`. -/
def plainAClass : PyClass := .mk "P" false true none [] [("a", false)]

/-! ## Lemmas about path navigation errors -/

/-- Errors raised by a single subscript step are `KeyError` or `TypeError`. -/
theorem subscript_err {v : PyVal} {key : String} {e : Err}
    (h : subscript v key = .error e) : e.isPathError = true := by
  cases v with
  | dict kvs =>
    simp only [subscript] at h
    cases hl : dictLookup kvs key with
    | some x => rw [hl] at h; exact absurd h (by simp)
    | none => rw [hl] at h; simp only [Except.error.injEq] at h; simp [← h, Err.isPathError]
  | null => simp only [subscript, Except.error.injEq] at h; simp [← h, Err.isPathError]
  | bool b => simp only [subscript, Except.error.injEq] at h; simp [← h, Err.isPathError]
  | num n => simp only [subscript, Except.error.injEq] at h; simp [← h, Err.isPathError]
  | str s => simp only [subscript, Except.error.injEq] at h; simp [← h, Err.isPathError]
  | list xs => simp only [subscript, Except.error.injEq] at h; simp [← h, Err.isPathError]
  | inst c a => simp only [subscript, Except.error.injEq] at h; simp [← h, Err.isPathError]

/-- Subscripting a non-mapping with a string key always raises a
path-resolution-kind `TypeError`. -/
theorem subscript_not_dict {v : PyVal} (key : String)
    (h : v.isDict = false) :
    ∃ e, subscript v key = .error e ∧ e.isPathError = true := by
  cases v with
  | dict kvs => simp [PyVal.isDict] at h
  | null => exact ⟨_, rfl, rfl⟩
  | bool b => exact ⟨_, rfl, rfl⟩
  | num n => exact ⟨_, rfl, rfl⟩
  | str s => exact ⟨_, rfl, rfl⟩
  | list xs => exact ⟨_, rfl, rfl⟩
  | inst c a => exact ⟨_, rfl, rfl⟩

/-- Errors raised by the navigation loop are `KeyError` or `TypeError`. -/
theorem pathGet_err : ∀ {ks : List String} {v : PyVal} {e : Err},
    pathGet v ks = .error e → e.isPathError = true := by
  intro ks
  induction ks with
  | nil => intro v e h; exact absurd h (by simp [pathGet])
  | cons k ks ih =>
    intro v e h
    unfold pathGet at h
    cases hs : subscript v k with
    | error e' =>
      rw [hs] at h
      simp only [exBind, Except.error.injEq] at h
      rw [← h]
      exact subscript_err hs
    | ok v' =>
      rw [hs] at h
      exact ih h

/-! ## Claim theorems -/

/-- C1: the claim states that the nested-collection branch of
`_deserialize_array` processes the elements with the nested `ElementType`'s
own declared `ElementType`.  The code instead reads `elements_class` off the
abstract base class `SdkCollectionObject` (line 80 of `deserializers.py`),
ignoring the nested class's own declared element: on `C = collection of D`,
`D = collection of E`, input `[[{"id": 1}]]`, deserializing fails with the
`AttributeError` from that base-class lookup, while processing the elements
with `D`'s own element class `E` (as the claim states) succeeds.  This
theorem evaluates both sides at that failing input. -/
theorem c1_nested_collection_uses_base_class :
    outerCollClass.isColl = true
    ∧ outerCollClass.elementsClass = some innerCollClass
    ∧ innerCollClass.isColl = true
    ∧ innerCollClass.elementsClass = some elemObjClass
    ∧ deserialize SdkCollectionObject_elements_class 10 outerCollClass
        (.ok (.list [.list [.dict [("id", .num 1)]]])) =
      .error (.attributeError
        "type object SdkCollectionObject has no attribute elements_class")
    ∧ _deserialize_array SdkCollectionObject_elements_class 10 elemObjClass
        (.list [.list [.dict [("id", .num 1)]]]) =
      .ok (.list [.list [.dict [("id", .num 1)]]]) :=
  ⟨rfl, rfl, rfl, rfl, rfl, rfl⟩

/-- C2 counterexample: for the collection class `collOfScalarClass` (whose
element class is the pass-through `scalarClass`) and the parsed `RawValue`
`{"a": 1}` — a mapping, not a sequence — `deserialize` returns a constructed
result instead of failing: no shape check exists in the code (the `Err` type
of the model has no `ShapeMismatch` because no code path produces one). -/
theorem c2_no_shape_check_counterexample :
    collOfScalarClass.isColl = true
    ∧ deserialize none 10 collOfScalarClass (.ok (.dict [("a", .num 1)])) =
        .ok (.inst "CollS" [("elements", .dict [("a", .num 1)])]) :=
  ⟨rfl, rfl⟩

/-- C2 amended: for a collection `TargetType`, a parsed `RawValue` that is
not a sequence is not rejected with any `ShapeMismatch`: the code performs
no shape check.  In particular, when the element class is the pass-through
kind, a raw value of any shape — sequence or not — is handed unchanged to
the collection constructor, so a non-sequence input can yield a constructed
result (as the counterexample shows for a mapping). -/
theorem c2_amended_no_shape_mismatch (base : Option PyClass) (fuel : Nat)
    (c ec : PyClass) (v : PyVal)
    (h1 : c.isColl = true) (h2 : c.elementsClass = some ec)
    (h3 : ec.isColl = false) (h4 : ec.isObj = false) :
    deserialize base (fuel + 1) c (.ok v) = callClass1 c v := by
  simp [deserialize, h1, h2, runD, h3, h4, exBind]

/-- C2 witness: the pass-through case at a concrete mapping input. -/
theorem c2_amended_witness :
    deserialize none 10 collOfScalarClass (.ok (.dict [])) =
      callClass1 collOfScalarClass (.dict []) :=
  c2_amended_no_shape_mismatch none 9 collOfScalarClass scalarClass
    (.dict []) rfl rfl rfl rfl

/-- C3: in `_deserialize_sub_object`, an intermediate segment of the dotted
path that is absent or resolves to a non-mapping makes the call fail with a
path-resolution-kind error (`KeyError` carrying the failing segment, or
`TypeError`), covering both places the failure can surface in the code:

* the navigation loop over `keys[:-1]` raises — an absent key, or a segment
  before the last intermediate one resolving to a non-mapping (the next
  subscript then fails); the call fails with exactly that error;
* the loop completes but the last intermediate segment resolved to a
  non-mapping, so the final-segment read `dict_[keys[-1]]` raises the
  `TypeError` before any recursion. -/
theorem c3_path_resolution_error :
    (∀ (base : Option PyClass) (fuel : Nat) (ns : String) (isList : Bool)
        (cls : PyClass) (v : PyVal) (e : Err),
      pathGet v (splitDot ns).dropLast = .error e →
      _deserialize_sub_object base (fuel + 1) ns isList cls v = .error e
      ∧ e.isPathError = true)
    ∧ (∀ (base : Option PyClass) (fuel : Nat) (ns : String) (isList : Bool)
        (cls : PyClass) (v target : PyVal),
      pathGet v (splitDot ns).dropLast = .ok target →
      target.isDict = false →
      ∃ e, _deserialize_sub_object base (fuel + 1) ns isList cls v = .error e
      ∧ e.isPathError = true) := by
  constructor
  · intro base fuel ns isList cls v e h
    refine ⟨?_, pathGet_err h⟩
    simp [_deserialize_sub_object, runD, h, exBind]
  · intro base fuel ns isList cls v target hg hnd
    obtain ⟨e, hs, hp⟩ := subscript_not_dict ((splitDot ns).getLastD "") hnd
    refine ⟨e, ?_, hp⟩
    rw [List.getLastD_eq_getLast?] at hs
    simp [_deserialize_sub_object, runD, hg, hs, exBind]

/-- C3 witness: schema path `"meta.owner"` against `{}` (intermediate key
`"meta"` absent) fails with that segment's `KeyError`, and against
`{"meta": 3}` (the intermediate segment resolves to a non-mapping) fails
with a path-resolution-kind `TypeError`. -/
theorem c3_witness :
    (_deserialize_sub_object none 5 "meta.owner" false elemObjClass (.dict []) =
        .error (.keyError "meta")
      ∧ (Err.keyError "meta").isPathError = true)
    ∧ ∃ e, _deserialize_sub_object none 5 "meta.owner" false elemObjClass
          (.dict [("meta", .num 3)]) = .error e
      ∧ e.isPathError = true :=
  ⟨c3_path_resolution_error.1 none 4 "meta.owner" false elemObjClass
      (.dict []) (.keyError "meta") rfl,
    c3_path_resolution_error.2 none 4 "meta.owner" false elemObjClass
      (.dict [("meta", .num 3)]) (.num 3) rfl rfl⟩

/-- C4: `_get_init_args` on a mapping never fails and returns exactly the
entries whose key is among the parameters of the type's `__init__`; all
other keys are dropped. -/
theorem c4_init_args_filter (c : PyClass) (kvs : List (String × PyVal)) :
    ∃ args, _get_init_args c (.dict kvs) = .ok args
      ∧ ∀ k v, ((k, v) ∈ args ↔ (k, v) ∈ kvs ∧ k ∈ init_parameters c) := by
  refine ⟨_, rfl, ?_⟩
  intro k v
  simp [List.mem_filter]

/-- C5: content-type dispatch is a pure total lookup: the JSON media type
selects `JsonDeserializer`, the form media type selects `FormDeserializer`,
any other non-empty string raises `UnknownContentTypeException` carrying the
value, and `None` or the empty string raise
`MissingContentTypeException`. -/
theorem c5_format_selector :
    _get_deserializer (some APPLICATION_JSON) = .ok .json
    ∧ _get_deserializer (some APPLICATION_FORM_URLENCODED) = .ok .form
    ∧ (∀ s : String, s ≠ "" → s ≠ APPLICATION_JSON →
        s ≠ APPLICATION_FORM_URLENCODED →
        _get_deserializer (some s) =
          .error (.unknownContentTypeException ("Unsupported Content-Type: " ++ s)))
    ∧ _get_deserializer none =
        .error (.missingContentTypeException
          "Cannot get correct serializer without defining the Content-Type")
    ∧ _get_deserializer (some "") =
        .error (.missingContentTypeException
          "Cannot get correct serializer without defining the Content-Type") := by
  refine ⟨rfl, rfl, ?_, rfl, rfl⟩
  intro s h1 h2 h3
  simp [_get_deserializer, h1, h2, h3]

/-- C5 witness: an unregistered non-empty content type. -/
theorem c5_witness :
    _get_deserializer (some "text/html") =
      .error (.unknownContentTypeException
        ("Unsupported Content-Type: " ++ "text/html")) :=
  c5_format_selector.2.2.1 "text/html" (by decide) (by decide) (by decide)

/-- C7: a JSON parse failure (`json.loads` raising `JSONDecodeError`)
propagates out of `deserialize` unchanged, for every target class: no
further processing happens and no partial result is produced. -/
theorem c7_malformed_payload (base : Option PyClass) (fuel : Nat)
    (c : PyClass) (msg : String) :
    deserialize base fuel c (.error (.jsonDecodeError msg)) =
      .error (.jsonDecodeError msg) :=
  rfl

/-- C8: for a target class that is neither an `SdkCollectionObject` nor an
`SdkObject` subclass, `deserialize` returns the parsed value unchanged. -/
theorem c8_scalar_passthrough (base : Option PyClass) (fuel : Nat)
    (c : PyClass) (v : PyVal) (h1 : c.isColl = false) (h2 : c.isObj = false) :
    deserialize base fuel c (.ok v) = .ok v := by
  simp [deserialize, h1, h2]

/-- C8 witness: a scalar-kind class passes a number through. -/
theorem c8_witness : deserialize none 5 scalarClass (.ok (.num 3)) = .ok (.num 3) :=
  c8_scalar_passthrough none 5 scalarClass (.num 3) rfl rfl

/-! ## Lemmas about keyword binding -/

/-- Keyword binding succeeds when no key is `self` and every key is a
declared parameter name. -/
theorem checkKwargs_none {names : List String} :
    ∀ {args : List (String × PyVal)},
    (∀ kv ∈ args, kv.1 ≠ "self" ∧ kv.1 ∈ names) →
    checkKwargs names args = none := by
  intro args
  induction args with
  | nil => intro _; rfl
  | cons kv rest ih =>
    intro h
    obtain ⟨h1, h2⟩ := h kv (by simp)
    have h2' : names.contains kv.1 = true := List.elem_iff.mpr h2
    simp only [checkKwargs, if_neg h1, h2', if_pos]
    exact ih (fun x hx => h x (by simp [hx]))

/-- Keyword binding reports "multiple values for self" as soon as a `self`
key is reached, provided no earlier key is unexpected. -/
theorem checkKwargs_self {names : List String} :
    ∀ {args : List (String × PyVal)},
    (∀ kv ∈ args, kv.1 = "self" ∨ kv.1 ∈ names) →
    (∃ kv ∈ args, kv.1 = "self") →
    checkKwargs names args =
      some (.typeError "got multiple values for argument self") := by
  intro args
  induction args with
  | nil => rintro _ ⟨kv, hkv, _⟩; simp at hkv
  | cons kv rest ih =>
    intro hall hex
    by_cases hk : kv.1 = "self"
    · simp [checkKwargs, hk]
    · obtain (h | h) := hall kv (by simp)
      · exact absurd h hk
      · have h' : names.contains kv.1 = true := List.elem_iff.mpr h
        simp only [checkKwargs, if_neg hk, h', if_pos]
        obtain ⟨kv', hkv', hs⟩ := hex
        rcases List.mem_cons.mp hkv' with heq | hmem
        · exact absurd (heq ▸ hs) hk
        · exact ih (fun x hx => hall x (by simp [hx])) ⟨kv', hmem, hs⟩

/-- C9: `FormDeserializer.deserialize` is exactly the class call
`class_(**raw)`: all key/value pairs are passed through as constructor
arguments (succeeding when they bind), a missing required parameter makes it
fail with the construction `TypeError`, and the result consults neither the
sub-object schema nor the element class of the target (no recursion). -/
theorem c9_form_deserializer :
    (∀ (raw : List (String × PyVal)) (c : PyClass),
      (∀ kv ∈ raw, kv.1 ≠ "self" ∧ kv.1 ∈ c.initParams.map Prod.fst) →
      (∀ p ∈ c.initParams, p.2 = true ∨ hasKey raw p.1 = true) →
      FormDeserializer_deserialize raw c = .ok (.inst c.name raw))
    ∧ (∀ (raw : List (String × PyVal)) (c : PyClass),
      (∀ kv ∈ raw, kv.1 ≠ "self" ∧ kv.1 ∈ c.initParams.map Prod.fst) →
      (∃ p ∈ c.initParams, p.2 = false ∧ hasKey raw p.1 = false) →
      FormDeserializer_deserialize raw c =
        .error (.typeError "missing required positional arguments"))
    ∧ (∀ (raw : List (String × PyVal)) (nm : String) (ic io : Bool)
        (e1 e2 : Option PyClass) (s1 s2 : List (String × Bool × PyClass))
        (ip : List (String × Bool)),
      FormDeserializer_deserialize raw (.mk nm ic io e1 s1 ip) =
        FormDeserializer_deserialize raw (.mk nm ic io e2 s2 ip)) := by
  refine ⟨?_, ?_, ?_⟩
  · intro raw c h1 h2
    simp only [FormDeserializer_deserialize, callClassKw, checkKwargs_none h1]
    have hall : c.initParams.all
        (fun p => p.2 || raw.any (fun kv => kv.1 = p.1)) = true := by
      apply List.all_eq_true.mpr
      intro p hp
      rcases h2 p hp with h | h
      · simp [h]
      · simp only [hasKey] at h
        simp [h]
    simp [hall]
  · intro raw c h1 h2
    simp only [FormDeserializer_deserialize, callClassKw, checkKwargs_none h1]
    obtain ⟨p, hp, hreq, hmiss⟩ := h2
    cases hall : c.initParams.all
        (fun p => p.2 || raw.any (fun kv => kv.1 = p.1)) with
    | false => simp [hall]
    | true =>
      exfalso
      have := List.all_eq_true.mp hall p hp
      simp only [hreq, Bool.false_or] at this
      simp only [hasKey] at hmiss
      rw [hmiss] at this
      cases this
  · intro raw nm ic io e1 e2 s1 s2 ip
    rfl

/-- C9 witness: the target class requires `a` and the flat mapping is
empty. -/
theorem c9_witness :
    FormDeserializer_deserialize [] plainAClass =
      .error (.typeError "missing required positional arguments") :=
  c9_form_deserializer.2.1 [] plainAClass (by simp)
    ⟨("a", false), by simp [plainAClass, PyClass.initParams], rfl, rfl⟩

/-! ## Key preservation through sub-object resolution -/

/-- `hasKey` as a membership statement. -/
theorem hasKey_iff {kvs : List (String × PyVal)} {k : String} :
    hasKey kvs k = true ↔ ∃ p ∈ kvs, p.1 = k := by
  simp [hasKey]

/-- `dictSet` never removes a key. -/
theorem hasKey_dictSet {kvs : List (String × PyVal)} {key k : String}
    {v : PyVal} (h : hasKey kvs k = true) :
    hasKey (dictSet kvs key v) k = true := by
  rw [hasKey_iff] at h ⊢
  obtain ⟨p, hp, hpk⟩ := h
  unfold dictSet
  by_cases hc : kvs.any (fun p => p.1 = key) = true
  · rw [if_pos hc]
    by_cases hkey : p.1 = key
    · refine ⟨(key, v), List.mem_map.mpr ⟨p, hp, by simp [hkey]⟩, ?_⟩
      rw [← hkey, hpk]
    · exact ⟨p, List.mem_map.mpr ⟨p, hp, by simp [hkey]⟩, hpk⟩
  · rw [if_neg hc]
    exact ⟨p, List.mem_append.mpr (Or.inl hp), hpk⟩

/-- The functional rebuild `pathSet` of the in-place update keeps every
existing top-level key of the root mapping. -/
theorem pathSet_dict {kvs : List (String × PyVal)} {ks : List String}
    {last : String} {nv w : PyVal}
    (h : pathSet (.dict kvs) ks last nv = .ok w) : dictSuperset kvs w := by
  cases ks with
  | nil =>
    simp only [pathSet, Except.ok.injEq] at h
    exact ⟨_, h.symm, fun k hk => hasKey_dictSet hk⟩
  | cons k ks =>
    simp only [pathSet] at h
    obtain ⟨sub, hs, h⟩ := exBind_ok_iff.mp h
    obtain ⟨nsub, hp, h⟩ := exBind_ok_iff.mp h
    simp only [Except.ok.injEq] at h
    exact ⟨_, h.symm, fun k' hk => hasKey_dictSet hk⟩

/-- Sub-object resolution, run on a mapping, returns a mapping whose key
set contains all the original keys: keys are only ever replaced or added,
never dropped. -/
theorem runD_dict_superset (base : Option PyClass) :
    ∀ fuel : Nat,
    (∀ (c : PyClass) (kvs : List (String × PyVal)) (w : PyVal),
      runD base fuel (.dct c (.dict kvs)) = .ok w → dictSuperset kvs w)
    ∧ (∀ (schema : List (String × Bool × PyClass))
        (kvs : List (String × PyVal)) (w : PyVal),
      runD base fuel (.subs schema (.dict kvs)) = .ok w → dictSuperset kvs w)
    ∧ (∀ (ns : String) (il : Bool) (cls : PyClass)
        (kvs : List (String × PyVal)) (w : PyVal),
      runD base fuel (.sub ns il cls (.dict kvs)) = .ok w → dictSuperset kvs w) := by
  intro fuel
  induction fuel with
  | zero =>
    refine ⟨?_, ?_, ?_⟩
    · intro c kvs w h; exact absurd h (by simp [runD])
    · intro schema kvs w h; exact absurd h (by simp [runD])
    · intro ns il cls kvs w h; exact absurd h (by simp [runD])
  | succ fuel ih =>
    refine ⟨?_, ?_, ?_⟩
    · intro c kvs w h
      simp only [runD] at h
      exact ih.2.1 _ _ _ h
    · intro schema kvs w h
      cases schema with
      | nil =>
        simp only [runD, Except.ok.injEq] at h
        exact ⟨kvs, h.symm, fun _ hk => hk⟩
      | cons entry rest =>
        obtain ⟨ns, il, cls⟩ := entry
        simp only [runD] at h
        obtain ⟨v', h1, h⟩ := exBind_ok_iff.mp h
        obtain ⟨kvs1, hv', hsup1⟩ := ih.2.2 _ _ _ _ _ h1
        subst hv'
        obtain ⟨kvs2, hw, hsup2⟩ := ih.2.1 _ _ _ h
        exact ⟨kvs2, hw, fun k hk => hsup2 k (hsup1 k hk)⟩
    · intro ns il cls kvs w h
      simp only [runD] at h
      obtain ⟨target, hg, h⟩ := exBind_ok_iff.mp h
      obtain ⟨old, hsub, h⟩ := exBind_ok_iff.mp h
      obtain ⟨nv, hrec, h⟩ := exBind_ok_iff.mp h
      exact pathSet_dict h

/-- C10: `inspect.signature(class_.__init__).parameters` always contains
`self` (the unbound function's first parameter), so `_get_init_args` does
not drop a raw key named `"self"`; when such a mapping reaches construction
of a plain object type, `class_(**init_args)` fails with the "multiple
values for argument self" `TypeError` instead of silently dropping the
key. -/
theorem c10_self_reaches_constructor :
    (∀ c : PyClass, "self" ∈ init_parameters c)
    ∧ (∀ (c : PyClass) (kvs : List (String × PyVal)) (v : PyVal),
        ("self", v) ∈ kvs →
        ∃ args, _get_init_args c (.dict kvs) = .ok args ∧ ("self", v) ∈ args)
    ∧ (∀ (base : Option PyClass) (fuel : Nat) (c : PyClass)
        (kvs : List (String × PyVal)) (w : PyVal),
        c.isColl = false → c.isObj = true →
        runD base fuel (.dct c (.dict kvs)) = .ok w →
        hasKey kvs "self" = true →
        deserialize base fuel c (.ok (.dict kvs)) =
          .error (.typeError "got multiple values for argument self")) := by
  refine ⟨?_, ?_, ?_⟩
  · intro c; simp [init_parameters]
  · intro c kvs v hmem
    refine ⟨_, rfl, ?_⟩
    apply List.mem_filter.mpr
    refine ⟨hmem, ?_⟩
    simp [init_parameters]
  · intro base fuel c kvs w h1 h2 h3 hk
    obtain ⟨kvs', hw, hsup⟩ := (runD_dict_superset base fuel).1 _ _ _ h3
    subst hw
    simp only [deserialize, h1, h2, Bool.false_eq_true, if_false, if_true, h3,
      exBind, _get_init_args]
    have hargs : checkKwargs (c.initParams.map Prod.fst)
        (kvs'.filter (fun kv => (init_parameters c).contains kv.1)) =
        some (.typeError "got multiple values for argument self") := by
      apply checkKwargs_self
      · intro kv hkv
        have := (List.mem_filter.mp hkv).2
        have hmem := List.elem_iff.mp this
        simp only [init_parameters, List.mem_cons] at hmem
        exact hmem
      · have hk' := hsup "self" hk
        simp only [hasKey, List.any_eq_true, decide_eq_true_eq] at hk'
        obtain ⟨p, hp, hps⟩ := hk'
        refine ⟨p, ?_, hps⟩
        apply List.mem_filter.mpr
        refine ⟨hp, ?_⟩
        apply List.elem_iff.mpr
        simp [init_parameters, hps]
    simp only [callClassKw, hargs]

/-- C10 witness: the plain object type `P(a)` and the raw mapping
`{"self": 2}`. -/
theorem c10_witness :
    deserialize none 2 plainAClass (.ok (.dict [("self", .num 2)])) =
      .error (.typeError "got multiple values for argument self") :=
  c10_self_reaches_constructor.2.2 none 2 plainAClass [("self", .num 2)]
    (.dict [("self", .num 2)]) rfl rfl rfl rfl

/-! ## Raw values stay raw through sub-object resolution -/

/-- `noInstL` as a membership statement. -/
theorem noInstL_iff {xs : List PyVal} :
    noInstL xs = true ↔ ∀ x ∈ xs, noInst x = true := by
  induction xs with
  | nil => simp [noInstL]
  | cons x xs ih => simp [noInstL, ih]

/-- `noInstKV` as a membership statement. -/
theorem noInstKV_iff {kvs : List (String × PyVal)} :
    noInstKV kvs = true ↔ ∀ p ∈ kvs, noInst p.2 = true := by
  induction kvs with
  | nil => simp [noInstKV]
  | cons p kvs ih => obtain ⟨k, v⟩ := p; simp [noInstKV, ih]

/-- A successful association-list lookup returns a stored entry. -/
theorem dictLookup_mem {kvs : List (String × PyVal)} {key : String}
    {x : PyVal} (h : dictLookup kvs key = some x) : (key, x) ∈ kvs := by
  induction kvs with
  | nil => cases h
  | cons p kvs ih =>
    obtain ⟨k, v⟩ := p
    by_cases hk : k = key
    · subst hk
      simp only [dictLookup, if_true, eq_self_iff_true, Option.some.injEq] at h
      subst h
      exact List.mem_cons_self _ _
    · simp only [dictLookup, if_neg hk] at h
      exact List.mem_cons_of_mem _ (ih h)

/-- A subscript read out of a raw value yields a raw value. -/
theorem noInst_subscript {v : PyVal} {key : String} {x : PyVal}
    (hv : noInst v = true) (h : subscript v key = .ok x) :
    noInst x = true := by
  cases v with
  | dict kvs =>
    simp only [subscript] at h
    cases hl : dictLookup kvs key with
    | some y =>
      rw [hl] at h
      simp only [Except.ok.injEq] at h
      subst h
      exact (noInstKV_iff.mp (by simpa [noInst] using hv)) _ (dictLookup_mem hl)
    | none => rw [hl] at h; cases h
  | null => cases h
  | bool b => cases h
  | num n => cases h
  | str s => cases h
  | list xs => cases h
  | inst c a => cases h

/-- Path navigation through a raw value yields a raw value. -/
theorem noInst_pathGet : ∀ {ks : List String} {v w : PyVal},
    noInst v = true → pathGet v ks = .ok w → noInst w = true := by
  intro ks
  induction ks with
  | nil =>
    intro v w hv h
    simp only [pathGet, Except.ok.injEq] at h
    exact h ▸ hv
  | cons k ks ih =>
    intro v w hv h
    simp only [pathGet] at h
    obtain ⟨v', hs, h⟩ := exBind_ok_iff.mp h
    exact ih (noInst_subscript hv hs) h

/-- `dictSet` with a raw value keeps the mapping raw. -/
theorem noInstKV_dictSet {kvs : List (String × PyVal)} {key : String}
    {nv : PyVal} (hm : noInstKV kvs = true) (hnv : noInst nv = true) :
    noInstKV (dictSet kvs key nv) = true := by
  rw [noInstKV_iff] at hm ⊢
  intro p hp
  unfold dictSet at hp
  by_cases hc : kvs.any (fun p => p.1 = key) = true
  · rw [if_pos hc] at hp
    obtain ⟨q, hq, hpq⟩ := List.mem_map.mp hp
    by_cases hkey : q.1 = key
    · rw [if_pos hkey] at hpq
      rw [← hpq]
      exact hnv
    · rw [if_neg hkey] at hpq
      rw [← hpq]
      exact hm q hq
  · rw [if_neg hc] at hp
    rcases List.mem_append.mp hp with hl | hr
    · exact hm p hl
    · simp only [List.mem_singleton] at hr
      rw [hr]
      exact hnv

/-- The functional in-place update keeps the tree raw when the new value is
raw. -/
theorem noInst_pathSet : ∀ {ks : List String} {v : PyVal} {last : String}
    {nv w : PyVal}, noInst v = true → noInst nv = true →
    pathSet v ks last nv = .ok w → noInst w = true := by
  intro ks
  induction ks with
  | nil =>
    intro v last nv w hv hnv h
    cases v with
    | dict kvs =>
      simp only [pathSet, Except.ok.injEq] at h
      subst h
      simpa [noInst] using noInstKV_dictSet (by simpa [noInst] using hv) hnv
    | null => cases h
    | bool b => cases h
    | num n => cases h
    | str s => cases h
    | list xs => cases h
    | inst c a => cases h
  | cons k ks ih =>
    intro v last nv w hv hnv h
    simp only [pathSet] at h
    obtain ⟨sub, hs, h⟩ := exBind_ok_iff.mp h
    obtain ⟨nsub, hp, h⟩ := exBind_ok_iff.mp h
    have hnsub : noInst nsub = true := ih (noInst_subscript hv hs) hnv hp
    cases v with
    | dict kvs =>
      simp only [Except.ok.injEq] at h
      subst h
      simpa [noInst] using noInstKV_dictSet (by simpa [noInst] using hv) hnsub
    | null => cases h
    | bool b => cases h
    | num n => cases h
    | str s => cases h
    | list xs => cases h
    | inst c a => cases h

/-- Python iteration over a raw value yields raw elements. -/
theorem noInst_pyIterate {v : PyVal} {els : List PyVal}
    (hv : noInst v = true) (h : pyIterate v = .ok els) :
    noInstL els = true := by
  cases v with
  | list xs =>
    simp only [pyIterate, Except.ok.injEq] at h
    subst h
    simpa [noInst] using hv
  | dict kvs =>
    simp only [pyIterate, Except.ok.injEq] at h
    subst h
    rw [noInstL_iff]
    intro x hx
    obtain ⟨kv, _, hkv⟩ := List.mem_map.mp hx
    rw [← hkv]
    rfl
  | str s =>
    simp only [pyIterate, Except.ok.injEq] at h
    subst h
    rw [noInstL_iff]
    intro x hx
    obtain ⟨ch, _, hch⟩ := List.mem_map.mp hx
    rw [← hch]
    rfl
  | null => cases h
  | bool b => cases h
  | num n => cases h
  | inst c a => cases h

/-- Consing a raw element onto a raw comprehension result stays raw. -/
theorem noInst_pyCons {r rs : PyVal} (hr : noInst r = true)
    (hrs : noInst rs = true) : noInst (pyCons r rs) = true := by
  cases rs with
  | list l => simp only [pyCons]; simp only [noInst, noInstL] at *; simp [hr, hrs]
  | null => exact hrs
  | bool b => exact hrs
  | num n => exact hrs
  | str s => exact hrs
  | dict kvs => exact hrs
  | inst c a => exact hrs

/-- The core invariant: `runD` started on raw input values only ever
produces raw values — no branch of `_deserialize_dict`,
`_deserialize_sub_object` or `_deserialize_array` filters constructor
arguments or instantiates a class. -/
theorem runD_noInst (base : Option PyClass) : ∀ (fuel : Nat) (req : Req),
    reqOk req = true → ∀ w, runD base fuel req = .ok w → noInst w = true := by
  intro fuel
  induction fuel with
  | zero => intro req _ w h; exact absurd h (by simp [runD])
  | succ fuel ih =>
    intro req hro w h
    cases req with
    | arr ec v =>
      simp only [runD] at h
      split at h
      · cases base with
        | none => simp at h
        | some b => exact ih (.arr b v) hro w h
      · split at h
        · obtain ⟨els, hi, h⟩ := exBind_ok_iff.mp h
          exact ih (.arrMap ec els) (noInst_pyIterate hro hi) w h
        · simp only [Except.ok.injEq] at h
          exact h ▸ hro
    | arrMap ec els =>
      cases els with
      | nil =>
        simp only [runD, Except.ok.injEq] at h
        rw [← h]
        rfl
      | cons el rest =>
        simp only [runD] at h
        obtain ⟨r, hdr, h⟩ := exBind_ok_iff.mp h
        obtain ⟨rs, hrest, h⟩ := exBind_ok_iff.mp h
        simp only [Except.ok.injEq] at h
        simp only [reqOk, noInstL, Bool.and_eq_true] at hro
        have hr := ih (.dct ec el) hro.1 r hdr
        have hrs := ih (.arrMap ec rest) hro.2 rs hrest
        rw [← h]
        exact noInst_pyCons hr hrs
    | dct c v =>
      simp only [runD] at h
      exact ih (.subs c.subObjects v) hro w h
    | subs schema v =>
      cases schema with
      | nil =>
        simp only [runD, Except.ok.injEq] at h
        exact h ▸ hro
      | cons entry rest =>
        obtain ⟨ns, il, cls⟩ := entry
        simp only [runD] at h
        obtain ⟨v', h1, h⟩ := exBind_ok_iff.mp h
        have hv' := ih (.sub ns il cls v) hro v' h1
        exact ih (.subs rest v') hv' w h
    | sub ns il cls v =>
      simp only [runD] at h
      obtain ⟨target, hg, h⟩ := exBind_ok_iff.mp h
      obtain ⟨old, hsub, h⟩ := exBind_ok_iff.mp h
      obtain ⟨nv, hrec, h⟩ := exBind_ok_iff.mp h
      have htarget := noInst_pathGet hro hg
      have hold := noInst_subscript htarget hsub
      have hnv : noInst nv = true := by
        cases il with
        | true => simp only [if_true, eq_self_iff_true] at hrec; exact ih (.arr cls old) hold nv hrec
        | false => simp at hrec; exact ih (.dct cls old) hold nv hrec
      exact noInst_pathSet hro hnv h

/-- `callClassKw` only ever succeeds with a constructed instance. -/
theorem callClassKw_ok {c : PyClass} {args : List (String × PyVal)}
    {w : PyVal} (h : callClassKw c args = .ok w) :
    w = .inst c.name args := by
  unfold callClassKw at h
  cases hc : checkKwargs (c.initParams.map Prod.fst) args with
  | some e => rw [hc] at h; cases h
  | none =>
    rw [hc] at h
    by_cases hall : c.initParams.all
        (fun p => p.2 || args.any (fun kv => kv.1 = p.1)) = true
    · rw [if_pos hall] at h
      simp only [Except.ok.injEq] at h
      exact h.symm
    · rw [if_neg hall] at h
      cases h

/-- C6: sub-object resolution never filters constructor arguments and never
instantiates: run on raw parsed values, `_deserialize_sub_object`,
`_deserialize_dict` and `_deserialize_array` produce raw values (arrays'
elements and nested sub-objects remain raw mappings); only the outermost
`deserialize` call instantiates, and for a plain object target its
successful result is a constructed instance of the top-level target
class. -/
theorem c6_only_outermost_instantiates :
    (∀ (base : Option PyClass) (fuel : Nat) (ns : String) (il : Bool)
        (cls : PyClass) (v w : PyVal), noInst v = true →
      _deserialize_sub_object base fuel ns il cls v = .ok w → noInst w = true)
    ∧ (∀ (base : Option PyClass) (fuel : Nat) (c : PyClass) (v w : PyVal),
        noInst v = true →
      _deserialize_dict base fuel c v = .ok w → noInst w = true)
    ∧ (∀ (base : Option PyClass) (fuel : Nat) (ec : PyClass) (v w : PyVal),
        noInst v = true →
      _deserialize_array base fuel ec v = .ok w → noInst w = true)
    ∧ (∀ (base : Option PyClass) (fuel : Nat) (c : PyClass)
        (pr : Except Err PyVal) (w : PyVal),
        c.isColl = false → c.isObj = true →
      deserialize base fuel c pr = .ok w →
      ∃ attrs, w = PyVal.inst c.name attrs) := by
  refine ⟨?_, ?_, ?_, ?_⟩
  · intro base fuel ns il cls v w hv h
    exact runD_noInst base fuel (.sub ns il cls v) hv w h
  · intro base fuel c v w hv h
    exact runD_noInst base fuel (.dct c v) hv w h
  · intro base fuel ec v w hv h
    exact runD_noInst base fuel (.arr ec v) hv w h
  · intro base fuel c pr w h1 h2 h
    cases pr with
    | error e => cases h
    | ok json_data =>
      simp only [deserialize, h1, h2, Bool.false_eq_true, if_false, if_true] at h
      obtain ⟨d, hd, h⟩ := exBind_ok_iff.mp h
      obtain ⟨args, hargs, h⟩ := exBind_ok_iff.mp h
      exact ⟨args, callClassKw_ok h⟩

/-- C6 witness: resolving the single-segment path `"a"` against the raw
mapping `{"a": {}}` leaves a raw mapping, and a plain-object deserialize
returns an instance of the target class. -/
theorem c6_witness :
    noInst (.dict [("a", .dict [])]) = true
    ∧ ∃ attrs, (PyVal.inst "P" [("a", .num 1)]) = PyVal.inst plainAClass.name attrs :=
  ⟨c6_only_outermost_instantiates.1 none 3 "a" false scalarClass
      (.dict [("a", .dict [])]) (.dict [("a", .dict [])]) rfl rfl,
    c6_only_outermost_instantiates.2.2.2 none 3 plainAClass
      (.ok (.dict [("a", .num 1)])) (PyVal.inst "P" [("a", .num 1)]) rfl rfl rfl⟩
